import Mathlib

set_option maxHeartbeats 1000000

/-!
Shallow embedding of the AutoViewScript remote-control server
(src/down_zip.py and src/server_down.py).

The filesystem state visible to the program is modelled explicitly:
each job's output directory is represented by its recursive file
listing (the sequence produced by os.walk: relative path from the
directory root together with the file's bytes), and the archive
directory (zips_path) is represented as an association list of stored
files.  Times are epoch seconds (Int); the wall-clock structure used
by datetime.now().isoformat() is a separate civil date-time record.
-/

/-- Bytes of a file, modelled as a list of naturals. -/
abbrev Bytes := List Nat

/-- JSON values, as produced by json.dumps on the dictionaries the server
builds.  Serialisation to the wire is not modelled; properties are stated
on the structured value. -/
inductive Json where
  | str (s : String)
  | num (n : Int)
  | arr (xs : List Json)
  | obj (kvs : List (String × Json))

/-- Keys of a JSON object (empty for non-objects). -/
def Json.keys : Json → List String
  | .obj kvs => kvs.map (fun kv => kv.fst)
  | _ => []

/-- Body of an HTTP response: a single text write, a JSON document, or a
chunked binary stream (the sequence of writes shutil.copyfileobj makes). -/
inductive HttpBody where
  | text (s : String)
  | json (j : Json)
  | stream (chunks : List Bytes)

/-- An HTTP response: status code, headers in the order sent, body. -/
structure HttpResponse where
  status : Nat
  headers : List (String × String)
  body : HttpBody

/-- Civil date-time as held by a Python datetime object. -/
structure PyDateTime where
  year : Nat
  month : Nat
  day : Nat
  hour : Nat
  minute : Nat
  second : Nat
  microsecond : Nat
deriving DecidableEq

/-- Field bounds guaranteed for any datetime Python can construct
(datetime.MINYEAR = 1, datetime.MAXYEAR = 9999). -/
def PyDateTime.Valid (d : PyDateTime) : Prop :=
  1 ≤ d.year ∧ d.year ≤ 9999 ∧ 1 ≤ d.month ∧ d.month ≤ 12 ∧
  1 ≤ d.day ∧ d.day ≤ 31 ∧ d.hour ≤ 23 ∧ d.minute ≤ 59 ∧
  d.second ≤ 59 ∧ d.microsecond ≤ 999999

instance (d : PyDateTime) : Decidable d.Valid := by
  unfold PyDateTime.Valid; infer_instance

/-- The decimal digit character for n % 10. -/
def digitChar (n : Nat) : Char := Char.ofNat (48 + n % 10)

/-- Two-digit zero-padded decimal rendering (exact for n < 100). -/
def pad2data (n : Nat) : List Char := [digitChar (n / 10), digitChar n]

/-- Four-digit zero-padded decimal rendering (exact for n < 10000). -/
def pad4data (n : Nat) : List Char :=
  [digitChar (n / 1000), digitChar (n / 100), digitChar (n / 10), digitChar n]

/-- Six-digit zero-padded decimal rendering (exact for n < 1000000). -/
def pad6data (n : Nat) : List Char :=
  [digitChar (n / 100000), digitChar (n / 10000), digitChar (n / 1000),
   digitChar (n / 100), digitChar (n / 10), digitChar n]

/-- datetime.isoformat(): YYYY-MM-DDTHH:MM:SS, with a .ffffff suffix
exactly when the microsecond field is nonzero. -/
def isoformat (d : PyDateTime) : String :=
  String.mk (pad4data d.year ++ ['-'] ++ pad2data d.month ++ ['-'] ++ pad2data d.day
    ++ ['T'] ++ pad2data d.hour ++ [':'] ++ pad2data d.minute ++ [':'] ++ pad2data d.second
    ++ (if d.microsecond == 0 then [] else ['.'] ++ pad6data d.microsecond))

/-- Whether a character is a decimal digit. -/
def isDigitCh (c : Char) : Bool := decide (48 ≤ c.toNat) && decide (c.toNat ≤ 57)

/-- Numeric value of a digit character. -/
def digitVal (c : Char) : Nat := c.toNat - 48

/-- Read exactly k digit characters, accumulating their decimal value. -/
def readDigits : Nat → Nat → List Char → Option (Nat × List Char)
  | 0, acc, cs => some (acc, cs)
  | _ + 1, _, [] => none
  | k + 1, acc, c :: cs =>
      if isDigitCh c then readDigits k (acc * 10 + digitVal c) cs else none

/-- Consume one expected character. -/
def expectCh (ch : Char) : List Char → Option (List Char)
  | [] => none
  | c :: cs => if c = ch then some cs else none

/-- An ISO8601 date-time parser: the formalisation of the spec phrase
"timestamp parses as ISO8601" (extended format, optional fractional
seconds, no timezone offset -- the shape datetime.isoformat emits for a
naive datetime). -/
def parseISO8601 (s : String) : Option PyDateTime :=
  (readDigits 4 0 s.data).bind fun yr =>
  (expectCh '-' yr.2).bind fun r1 =>
  (readDigits 2 0 r1).bind fun mor =>
  (expectCh '-' mor.2).bind fun r2 =>
  (readDigits 2 0 r2).bind fun dyr =>
  (expectCh 'T' dyr.2).bind fun r3 =>
  (readDigits 2 0 r3).bind fun hr =>
  (expectCh ':' hr.2).bind fun r4 =>
  (readDigits 2 0 r4).bind fun mir =>
  (expectCh ':' mir.2).bind fun r5 =>
  (readDigits 2 0 r5).bind fun ser =>
  (match ser.2 with
   | [] => some (0, ([] : List Char))
   | '.' :: r6 => readDigits 6 0 r6
   | _ => none).bind fun usr =>
  if usr.2 = [] then
    if 1 ≤ mor.1 ∧ mor.1 ≤ 12 ∧ 1 ≤ dyr.1 ∧ dyr.1 ≤ 31 ∧
       hr.1 ≤ 23 ∧ mir.1 ≤ 59 ∧ ser.1 ≤ 59 then
      some ⟨yr.1, mor.1, dyr.1, hr.1, mir.1, ser.1, usr.1⟩
    else none
  else none

/-! The down_zip.py module: FileManager over an explicit filesystem state. -/

/-- Compression method of a zip archive; compress_folder always passes
zipfile.ZIP_DEFLATED. -/
inductive CompMethod where
  | deflated
  | stored
deriving DecidableEq

/-- A zip archive as a structured value: the compression method and the
entries (arcname, file bytes) in the order they were written. -/
structure ZipArchive where
  method : CompMethod
  entries : List (String × Bytes)
deriving DecidableEq

/-- Content of a file in the archive directory: either a zip archive the
program wrote (kept structured) or raw foreign bytes. -/
inductive FileContent where
  | zip (a : ZipArchive)
  | raw (b : Bytes)
deriving DecidableEq

/-- Placeholder serialisation of a zip archive to its on-disk bytes.  The
real deflate byte stream is not representable; every property proved here
treats the bytes opaquely (sizes and download bodies are stated against
this same function, never against deflate internals). -/
def zipBytes (a : ZipArchive) : Bytes :=
  a.entries.foldr (fun e acc => (e.fst.data.map Char.toNat) ++ [256] ++ e.snd ++ [257] ++ acc) []

/-- On-disk bytes of a stored file. -/
def fileBytes : FileContent → Bytes
  | .zip a => zipBytes a
  | .raw b => b

/-- os.path.getsize of a stored file. -/
def fileSize (c : FileContent) : Nat := (fileBytes c).length

/-- One file inside the archive directory (zips_path): its base name,
content and creation time (epoch seconds, as os.path.getctime returns). -/
structure StoredFile where
  name : String
  content : FileContent
  ctime : Int
deriving DecidableEq

/-- The module-level constant zips_path of down_zip.py. -/
def zips_path : String := "D:\\pyCharmProject\\AutoViewScript\\zip"

/-- os.path.join on Windows. -/
def pathJoin (a b : String) : String := a ++ "\\" ++ b

/-- The fixed list of archive names get_available_files probes, in order. -/
def zip_files : List String := ["contents.zip", "comments.zip"]

/-- Look up a file by name in the archive directory (a real directory has
at most one file per name; theorems that need this carry a Nodup
hypothesis on the names). -/
def storeLookup (st : List StoredFile) (n : String) : Option StoredFile :=
  st.find? (fun f => f.name == n)

/-- Writing a file (open(..., 'w')): truncate in place when the name
exists -- on Windows the creation time of an overwritten file is kept --
otherwise create it with the current time as creation time. -/
def storeWrite (st : List StoredFile) (n : String) (c : FileContent) (now : Int) :
    List StoredFile :=
  match st with
  | [] => [⟨n, c, now⟩]
  | f :: fs => if f.name == n then ⟨n, c, f.ctime⟩ :: fs else f :: storeWrite fs n c now

/-- os.remove: delete the file with the given name. -/
def storeRemove (st : List StoredFile) (n : String) : List StoredFile :=
  st.eraseP (fun f => f.name == n)

/-- The names present in the archive directory. -/
def storeNames (st : List StoredFile) : List String := st.map (fun f => f.name)

/-- How many files of the directory carry a given name. -/
def countName (st : List StoredFile) (n : String) : Nat :=
  (st.filter (fun f => f.name == n)).length

/-- The complete world state the program manipulates: each output folder's
recursive file listing keyed by folder name ("contents"/"comments";
a missing key models os.path.exists(folder_path) = False), the archive
directory, and the current epoch time. -/
structure World where
  outputDirs : List (String × List (String × Bytes))
  store : List StoredFile
  now : Int
deriving DecidableEq

/-- Look up an output directory's recursive listing by folder name. -/
def dirLookup (ds : List (String × List (String × Bytes))) (n : String) :
    Option (List (String × Bytes)) :=
  (ds.find? (fun d => d.fst == n)).map (fun d => d.snd)

/-- Replace (or create) an output directory's listing; models the job
rewriting its output folder between runs. -/
def dirWrite (ds : List (String × List (String × Bytes))) (n : String)
    (files : List (String × Bytes)) : List (String × List (String × Bytes)) :=
  match ds with
  | [] => [(n, files)]
  | d :: rest => if d.fst == n then (n, files) :: rest else d :: dirWrite rest n files

/-- One entry of the list get_available_files builds (the display-only
fields size_mb, formatted_size and the local-time created_time string are
derived from size and ctime and are omitted from the model). -/
structure ArchiveEntry where
  name : String
  path : String
  size : Nat
  ctime : Int
deriving DecidableEq

/-- FileManager.get_available_files: probe the two fixed archive names in
order and collect an entry for each that exists. -/
def get_available_files (st : List StoredFile) : List ArchiveEntry :=
  zip_files.filterMap (fun zf =>
    match storeLookup st zf with
    | some f => some ⟨zf, pathJoin zips_path zf, fileSize f.content, f.ctime⟩
    | none => none)

/-- Round num/den to one decimal digit, ties to even (idealisation of
Python float formatting with :.1f on the exact rational). -/
def fmtTenths (num den : Nat) : String :=
  let t := num * 10
  let q := t / den
  let r := t % den
  let q2 := if 2 * r > den then q + 1
            else if 2 * r < den then q
            else if q % 2 == 1 then q + 1 else q
  toString (q2 / 10) ++ "." ++ toString (q2 % 10)

/-- FileManager._format_file_size. -/
def format_file_size (size_bytes : Nat) : String :=
  if size_bytes < 1024 then toString size_bytes ++ " B"
  else if size_bytes < 1024 * 1024 then fmtTenths size_bytes 1024 ++ " KB"
  else if size_bytes < 1024 * 1024 * 1024 then fmtTenths size_bytes (1024 * 1024) ++ " MB"
  else fmtTenths size_bytes (1024 * 1024 * 1024) ++ " GB"

/-- FileManager.compress_folder: resolve the folder, fail if it does not
exist, otherwise walk it and write every regular file into a
ZIP_DEFLATED archive at the fixed path zips_path/&lt;folder&gt;.zip, each entry
named by its path relative to the folder's parent directory
(os.path.relpath(file_path, os.path.dirname(folder_path))).
Returns the updated world and (success, message, zip_path). -/
def compress_folder (w : World) (folder_name : String) :
    World × (Bool × String × Option String) :=
  if folder_name ≠ "contents" ∧ folder_name ≠ "comments" then
    (w, (false, "不支持的文件夹: " ++ folder_name, none))
  else
    let zip_name := folder_name ++ ".zip"
    let zip_path := pathJoin zips_path zip_name
    match dirLookup w.outputDirs folder_name with
    | none => (w, (false, "文件夹不存在: " ++ folder_name, none))
    | some files =>
        let archive : ZipArchive :=
          ⟨CompMethod.deflated,
           files.map (fun f => (folder_name ++ "\\" ++ f.fst, f.snd))⟩
        let st' := storeWrite w.store zip_name (FileContent.zip archive) w.now
        let fsz := fileSize (FileContent.zip archive)
        let message := "成功压缩: " ++ zip_name ++ " (" ++ toString files.length
          ++ "个文件, " ++ format_file_size fsz ++ ")"
        ({w with store := st'}, (true, message, some zip_path))

/-- Whether the stored file with this name is older than the cutoff (the
os.path.getctime(file_path) &lt; cutoff_time test; false when absent). -/
def isOld (st : List StoredFile) (cutoff : Int) (n : String) : Bool :=
  match storeLookup st n with
  | some f => decide (f.ctime < cutoff)
  | none => false

/-- Result of the cleanup loop: either it ran to completion with the
final store and count, or an exception was raised partway, leaving the
store as it was at that moment together with the exception text. -/
inductive CleanupOutcome where
  | done (st : List StoredFile) (count : Nat)
  | raised (st : List StoredFile) (msg : String)
deriving DecidableEq

/-- The loop body of cleanup_old_files.  For each listed entry it re-reads
the file's creation time (os.path.getctime raises if the file vanished),
deletes it when older than the cutoff, and counts the deletion.  The
failRemove set names files whose os.remove raises (modelling an OS error
partway through; its exception text is abstracted). -/
def cleanupLoop (cutoff : Int) (failRemove : List String) :
    List ArchiveEntry → List StoredFile → Nat → CleanupOutcome
  | [], st, c => CleanupOutcome.done st c
  | e :: rest, st, c =>
      match storeLookup st e.name with
      | none => CleanupOutcome.raised st ("文件未找到: " ++ e.name)
      | some f =>
          if f.ctime < cutoff then
            if e.name ∈ failRemove then
              CleanupOutcome.raised st ("无法删除: " ++ e.name)
            else
              cleanupLoop cutoff failRemove rest (storeRemove st e.name) (c + 1)
          else
            cleanupLoop cutoff failRemove rest st c

/-- FileManager.cleanup_old_files, generalised by the set of removals
that raise.  The try/except wraps the whole loop: on an exception the
function returns (0, error message) -- deletions already performed are
kept, but the running count is discarded. -/
def cleanup_old_files_run (failRemove : List String) (w : World) (days : Nat) :
    World × Nat × String :=
  let cutoff : Int := w.now - (days : Int) * 24 * 60 * 60
  match cleanupLoop cutoff failRemove (get_available_files w.store) w.store 0 with
  | CleanupOutcome.done st c =>
      ({w with store := st}, c, "清理了 " ++ toString c ++ " 个旧文件")
  | CleanupOutcome.raised st m =>
      ({w with store := st}, 0, "清理文件时出错: " ++ m)

/-- FileManager.cleanup_old_files on a filesystem where no removal
raises. -/
def cleanup_old_files (w : World) (days : Nat) : World × Nat × String :=
  cleanup_old_files_run [] w days

/-- Convenience function down_zip.compress_contents. -/
def compress_contents (w : World) : World × (Bool × String × Option String) :=
  compress_folder w "contents"

/-- Convenience function down_zip.compress_comments. -/
def compress_comments (w : World) : World × (Bool × String × Option String) :=
  compress_folder w "comments"

/-- Convenience function down_zip.get_downloadable_files. -/
def get_downloadable_files (w : World) : List ArchiveEntry :=
  get_available_files w.store

/-- Convenience function down_zip.cleanup_files, whose days argument
defaults to 7 (the value the /cleanup route uses). -/
def down_zip_cleanup_files (w : World) : World × Nat × String :=
  cleanup_old_files w 7

/-! The server_down.py module: RemoteControlHandler. -/

/-- The SCRIPT_PATHS configuration: job name to executable path. -/
def SCRIPT_PATHS : List (String × String) :=
  [("contents", "D:\\AutoViewScript\\contents.py"),
   ("comments", "D:\\AutoViewScript\\comments.py")]

/-- Registry lookup (the `script_name in SCRIPT_PATHS` test and the
indexing SCRIPT_PATHS[script_name]). -/
def scriptLookup (n : String) : Option String :=
  (SCRIPT_PATHS.find? (fun p => p.fst == n)).map (fun p => p.snd)

/-- self.path.split(sep)[-1]: the characters after the last '/' (for a
string without '/', the whole string), as a fold over the characters. -/
def lastSeg (s : String) : String :=
  String.mk (s.data.foldl (fun acc c => if c == '/' then [] else acc.concat c) [])

/-- str.startswith, on the underlying character lists: does the first
list start with the second? -/
def listIsPfx : List Char → List Char → Bool
  | _, [] => true
  | [], _ :: _ => false
  | a :: as, b :: bs => a == b && listIsPfx as bs

/-- self.path.startswith(p). -/
def pyStartsWith (s p : String) : Bool := listIsPfx s.data p.data

/-- self.send_error(code, message): an error response (the HTML error
page body is summarised by the message text; the bare one-argument form
passes the empty message). -/
def send_error (code : Nat) (msg : String) : HttpResponse :=
  ⟨code, [], HttpBody.text msg⟩

/-- A background execution unit created by threading.Thread(...).start():
the daemon thread that will run run_in_thread for this script. -/
structure SpawnedThread where
  script_name : String
deriving DecidableEq

/-- The outcome of the subprocess.run call inside the background thread,
supplied as an environment input: the child finished within the timeout
with an exit code and captured stdout/stderr, it exceeded the 300 s
timeout (subprocess.run kills it and raises TimeoutExpired), or spawning
raised (e.g. a missing interpreter). -/
inductive JobOutcome where
  | completed (exitCode : Int) (stdout : String) (stderr : String)
  | timedOut
  | spawnError (msg : String)
deriving DecidableEq

/-- The Python exceptions that can escape the code inside the thread's
try block. -/
inductive PyExc where
  | timeoutExpired (script : String)
  | otherExc (msg : String)
deriving DecidableEq

/-- The fixed subprocess timeout (seconds) passed to subprocess.run. -/
def JOB_TIMEOUT : Nat := 300

/-- The body of run_in_thread inside its try block, before any except
clause.  venvExists is the os.path.exists(python_exe) test.  In the venv
branch the script's output is logged and the matching folder is
compressed -- unconditionally, with result.returncode never inspected;
stderr is logged after compression when nonempty.  In the fallback
branch (system Python) no compression happens at all.  A timeout or a
spawn failure surfaces as an exception. -/
def run_in_thread_body (venvExists : Bool) (o : JobOutcome) (script_name : String)
    (w : World) : Except PyExc (World × List String) :=
  if venvExists then
    match o with
    | JobOutcome.completed _ec sout serr =>
        let logs0 := ["开始执行脚本: " ++ script_name,
                      "脚本 " ++ script_name ++ " 执行完成",
                      "输出: " ++ sout]
        let cr := if script_name == "contents" then compress_contents w
                  else compress_comments w
        let logs1 := logs0 ++ ["压缩结果: " ++ cr.2.2.1]
            ++ (if serr ≠ "" then ["错误: " ++ serr] else [])
        Except.ok (cr.1, logs1)
    | JobOutcome.timedOut => Except.error (PyExc.timeoutExpired script_name)
    | JobOutcome.spawnError m => Except.error (PyExc.otherExc m)
  else
    match o with
    | JobOutcome.completed _ec _sout _serr =>
        Except.ok (w, ["脚本 " ++ script_name ++ " 执行完成"])
    | JobOutcome.timedOut => Except.error (PyExc.timeoutExpired script_name)
    | JobOutcome.spawnError m => Except.error (PyExc.otherExc m)

/-- The complete background unit: the try block together with its two
except clauses (subprocess.TimeoutExpired, then Exception).  The result
is an Except so that an exception NOT caught by either clause would
surface as Except.error; both clauses turn their exception into a log
line and a normal return. -/
def run_in_thread_result (venvExists : Bool) (o : JobOutcome) (script_name : String)
    (w : World) : Except PyExc (World × List String) :=
  match run_in_thread_body venvExists o script_name w with
  | Except.ok r => Except.ok r
  | Except.error (PyExc.timeoutExpired nm) =>
      Except.ok (w, ["脚本 " ++ nm ++ " 执行超时"])
  | Except.error (PyExc.otherExc m) =>
      Except.ok (w, ["执行脚本时出错: " ++ m])

/-- The background unit viewed as the total function it is after the
except clauses (the error case below is unreachable). -/
def run_in_thread (venvExists : Bool) (o : JobOutcome) (script_name : String)
    (w : World) : World × List String :=
  match run_in_thread_result venvExists o script_name w with
  | Except.ok r => r
  | Except.error _ => (w, [])

/-- RemoteControlHandler.run_script: registry check, thread start, and
the immediate acknowledgment.  The thread itself is returned as data (it
has not run yet when the response is sent). -/
def run_script (script_name : String) : HttpResponse × Option SpawnedThread :=
  match scriptLookup script_name with
  | some _ =>
      (⟨200, [("Content-type", "text/plain; charset=utf-8")],
        HttpBody.text ("已启动 " ++ script_name ++ " 脚本，正在分析数据...")⟩,
       some ⟨script_name⟩)
  | none => (send_error 404 "Script not found", none)

/-- shutil.COPY_BUFSIZE on Windows: copyfileobj reads in blocks of at
most this many bytes. -/
def COPY_BUFSIZE : Nat := 1024 * 1024

/-- Split a byte list into successive blocks of at most k bytes: the
sequence of writes shutil.copyfileobj performs. -/
def chunksOf (k : Nat) (l : Bytes) : List Bytes :=
  if h : l = [] ∨ k = 0 then []
  else
    List.take k l :: chunksOf k (List.drop k l)
termination_by l.length
decreasing_by
  push_neg at h
  have hl : l.length ≠ 0 := by
    intro hc
    exact h.1 (List.eq_nil_of_length_eq_zero hc)
  simp [List.length_drop]
  omega

/-- UTF-8 encoding of one character (str.encode('utf-8'), per code
point). -/
def utf8Bytes (c : Char) : Bytes :=
  let n := c.toNat
  if n < 128 then [n]
  else if n < 2048 then [192 + n / 64, 128 + n % 64]
  else if n < 65536 then [224 + n / 4096, 128 + n / 64 % 64, 128 + n % 64]
  else [240 + n / 262144, 128 + n / 4096 % 64, 128 + n / 64 % 64, 128 + n % 64]

/-- file_name.encode('utf-8').decode('latin-1'): reinterpret each UTF-8
byte as the Latin-1 character of that code point. -/
def latin1OfUtf8 (s : String) : String :=
  String.mk ((s.data.flatMap utf8Bytes).map (fun b => Char.ofNat b))

/-- RemoteControlHandler.download_file: look the name up in the
available-files list; 404 when absent; otherwise 200 with the zip
content type, the attachment filename (byte-safe encoded), the
Content-Length taken from the listed size, and the file streamed by
shutil.copyfileobj in bounded blocks. -/
def download_file (w : World) (file_name : String) : HttpResponse :=
  match (get_available_files w.store).find? (fun f => f.name == file_name) with
  | none => send_error 404 "File not found"
  | some fi =>
      let bytes := match storeLookup w.store fi.name with
        | some f => fileBytes f.content
        | none => []
      ⟨200,
       [("Content-type", "application/zip"),
        ("Content-Disposition",
          "attachment; filename=\"" ++ latin1OfUtf8 file_name ++ "\""),
        ("Content-Length", toString fi.size)],
       HttpBody.stream (chunksOf COPY_BUFSIZE bytes)⟩

/-- JSON rendering of one available-file dictionary (the display-only
fields are omitted, see ArchiveEntry). -/
def entryJson (e : ArchiveEntry) : Json :=
  Json.obj [("name", Json.str e.name), ("path", Json.str e.path),
            ("size", Json.num (Int.ofNat e.size))]

/-- The /status route's response. -/
def statusResponse (w : World) (nowDT : PyDateTime) : HttpResponse :=
  ⟨200, [("Content-type", "application/json")],
   HttpBody.json (Json.obj
     [("status", Json.str "running"),
      ("timestamp", Json.str (isoformat nowDT)),
      ("files", Json.arr ((get_available_files w.store).map entryJson))])⟩

/-- RemoteControlHandler.cleanup_files: call down_zip.cleanup_files()
(default 7-day window) and answer 200 JSON with the snake_case keys the
source uses. -/
def cleanup_files_handler (w : World) : World × HttpResponse :=
  let r := down_zip_cleanup_files w
  (r.1,
   ⟨200, [("Content-type", "application/json")],
    HttpBody.json (Json.obj
      [("deleted_count", Json.num (Int.ofNat r.2.1)),
       ("message", Json.str r.2.2)])⟩)

/-- RemoteControlHandler.get_control_page: the HTML control page.  The
markup and inline script are presentation-only and are abbreviated to a
marker that records the file list the page was built from. -/
def get_control_page (files : List ArchiveEntry) : String :=
  "control page: " ++ toString (files.map (fun f => f.name))

/-- Result of serving one GET request: the filesystem afterwards, the
response sent, and the background thread started (for /run only). -/
structure GetResult where
  world : World
  response : HttpResponse
  thread : Option SpawnedThread

/-- RemoteControlHandler.do_GET: route on the request path in source
order ('/', '/run/' prefix, '/download/' prefix, '/status', '/cleanup',
otherwise 404). -/
def do_GET (w : World) (nowDT : PyDateTime) (path : String) : GetResult :=
  if path = "/" then
    ⟨w, ⟨200, [("Content-type", "text/html; charset=utf-8")],
      HttpBody.text (get_control_page (get_downloadable_files w))⟩, none⟩
  else if pyStartsWith path "/run/" then
    let r := run_script (lastSeg path)
    ⟨w, r.1, r.2⟩
  else if pyStartsWith path "/download/" then
    ⟨w, download_file w (lastSeg path), none⟩
  else if path = "/status" then
    ⟨w, statusResponse w nowDT, none⟩
  else if path = "/cleanup" then
    let r := cleanup_files_handler w
    ⟨r.1, r.2, none⟩
  else
    ⟨w, send_error 404 "", none⟩

/-- One request followed by the completion of the background thread it
started (if any), with the thread's environment (venv presence and job
outcome) supplied as inputs.  The response field is fixed before the
thread runs. -/
def serverStep (w : World) (nowDT : PyDateTime) (path : String)
    (venvExists : Bool) (o : JobOutcome) : GetResult × List String :=
  let g := do_GET w nowDT path
  match g.thread with
  | some t =>
      let r := run_in_thread venvExists o t.script_name g.world
      (⟨r.1, g.response, g.thread⟩, r.2)
  | none => (g, [])

/-- Keys of a JSON response body (empty for non-JSON bodies). -/
def responseJsonKeys (r : HttpResponse) : List String :=
  match r.body with
  | HttpBody.json j => j.keys
  | _ => []

/-! Helper lemmas. -/

/-- Code point of a rendered digit character. -/
theorem digitChar_toNat (k : Nat) : (digitChar k).toNat = 48 + k % 10 := by
  have h : k % 10 < 10 := Nat.mod_lt _ (by norm_num)
  unfold digitChar
  generalize k % 10 = m at *
  interval_cases m <;> rfl

/-- Rendered digits are digits. -/
theorem isDigitCh_digitChar (k : Nat) : isDigitCh (digitChar k) = true := by
  have h : k % 10 < 10 := Nat.mod_lt _ (by norm_num)
  simp [isDigitCh, digitChar_toNat]
  omega

/-- Value of a rendered digit character. -/
theorem digitVal_digitChar (k : Nat) : digitVal (digitChar k) = k % 10 := by
  simp [digitVal, digitChar_toNat]

/-- Reading back a two-digit rendering. -/
theorem readDigits_pad2 (n : Nat) (rest : List Char) :
    readDigits 2 0 (pad2data n ++ rest) = some (n % 100, rest) := by
  simp [pad2data, readDigits, isDigitCh_digitChar, digitVal_digitChar]
  omega

/-- Reading back a four-digit rendering. -/
theorem readDigits_pad4 (n : Nat) (rest : List Char) :
    readDigits 4 0 (pad4data n ++ rest) = some (n % 10000, rest) := by
  simp [pad4data, readDigits, isDigitCh_digitChar, digitVal_digitChar]
  omega

/-- Reading back a six-digit rendering. -/
theorem readDigits_pad6 (n : Nat) (rest : List Char) :
    readDigits 6 0 (pad6data n ++ rest) = some (n % 1000000, rest) := by
  simp [pad6data, readDigits, isDigitCh_digitChar, digitVal_digitChar]
  omega

/-- expectCh consumes the expected character. -/
theorem expectCh_cons_self (ch : Char) (cs : List Char) :
    expectCh ch (ch :: cs) = some cs := by
  simp [expectCh]

/-- The timestamp datetime.isoformat() emits parses back as ISO8601 (to
the very same date-time). -/
theorem parseISO8601_isoformat (d : PyDateTime) (h : d.Valid) :
    parseISO8601 (isoformat d) = some d := by
  obtain ⟨h1, h2, h3, h4, h5, h6, h7, h8, h9, h10⟩ := h
  have hy : d.year % 10000 = d.year := Nat.mod_eq_of_lt (by omega)
  have hmo : d.month % 100 = d.month := Nat.mod_eq_of_lt (by omega)
  have hd : d.day % 100 = d.day := Nat.mod_eq_of_lt (by omega)
  have hh : d.hour % 100 = d.hour := Nat.mod_eq_of_lt (by omega)
  have hmi : d.minute % 100 = d.minute := Nat.mod_eq_of_lt (by omega)
  have hs : d.second % 100 = d.second := Nat.mod_eq_of_lt (by omega)
  have hu : d.microsecond % 1000000 = d.microsecond := Nat.mod_eq_of_lt (by omega)
  unfold parseISO8601 isoformat
  by_cases hz : d.microsecond = 0
  · simp only [hz, List.append_assoc, List.singleton_append, beq_self_eq_true, if_true,
      List.append_nil]
    rw [readDigits_pad4]
    simp only [Option.some_bind, List.cons_append, List.append_assoc]
    rw [expectCh_cons_self]
    simp only [Option.some_bind, List.cons_append, List.append_assoc]
    rw [readDigits_pad2]
    simp only [Option.some_bind, List.cons_append, List.append_assoc]
    rw [expectCh_cons_self]
    simp only [Option.some_bind, List.cons_append, List.append_assoc]
    rw [readDigits_pad2]
    simp only [Option.some_bind, List.cons_append, List.append_assoc]
    rw [expectCh_cons_self]
    simp only [Option.some_bind, List.cons_append, List.append_assoc]
    rw [readDigits_pad2]
    simp only [Option.some_bind, List.cons_append, List.append_assoc]
    rw [expectCh_cons_self]
    simp only [Option.some_bind, List.cons_append, List.append_assoc]
    rw [readDigits_pad2]
    simp only [Option.some_bind, List.cons_append, List.append_assoc]
    rw [expectCh_cons_self]
    simp only [Option.some_bind, List.cons_append, List.append_assoc]
    rw [show (pad2data d.second : List Char) = pad2data d.second ++ [] from (List.append_nil _).symm]
    rw [readDigits_pad2]
    simp only [Option.some_bind, List.cons_append, List.append_assoc]
    simp only [hy, hmo, hd, hh, hmi, hs]
    simp only [if_true, if_pos rfl]
    rw [if_pos (by omega : 1 ≤ d.month ∧ d.month ≤ 12 ∧ 1 ≤ d.day ∧ d.day ≤ 31 ∧ d.hour ≤ 23 ∧ d.minute ≤ 59 ∧ d.second ≤ 59)]
    rw [show (0 : Nat) = d.microsecond from hz.symm]
  · have hzb : (d.microsecond == 0) = false := by simp [hz]
    simp only [hzb, Bool.false_eq_true, if_false, List.append_assoc, List.singleton_append]
    rw [readDigits_pad4]
    simp only [Option.some_bind, List.cons_append, List.append_assoc]
    rw [expectCh_cons_self]
    simp only [Option.some_bind, List.cons_append, List.append_assoc]
    rw [readDigits_pad2]
    simp only [Option.some_bind, List.cons_append, List.append_assoc]
    rw [expectCh_cons_self]
    simp only [Option.some_bind, List.cons_append, List.append_assoc]
    rw [readDigits_pad2]
    simp only [Option.some_bind, List.cons_append, List.append_assoc]
    rw [expectCh_cons_self]
    simp only [Option.some_bind, List.cons_append, List.append_assoc]
    rw [readDigits_pad2]
    simp only [Option.some_bind, List.cons_append, List.append_assoc]
    rw [expectCh_cons_self]
    simp only [Option.some_bind, List.cons_append, List.append_assoc]
    rw [readDigits_pad2]
    simp only [Option.some_bind, List.cons_append, List.append_assoc]
    rw [expectCh_cons_self]
    simp only [Option.some_bind, List.cons_append, List.append_assoc]
    rw [readDigits_pad2]
    simp only [Option.some_bind, List.cons_append, List.append_assoc]
    rw [show (pad6data d.microsecond : List Char) = pad6data d.microsecond ++ [] from (List.append_nil _).symm]
    rw [readDigits_pad6]
    simp only [Option.some_bind, List.cons_append, List.append_assoc]
    simp only [hy, hmo, hd, hh, hmi, hs, hu]
    simp only [if_true, if_pos rfl]
    rw [if_pos (by omega : 1 ≤ d.month ∧ d.month ≤ 12 ∧ 1 ≤ d.day ∧ d.day ≤ 31 ∧ d.hour ≤ 23 ∧ d.minute ≤ 59 ∧ d.second ≤ 59)]

/-- Writing a name makes it the one found at that name (its creation
time is the old one when overwriting, the current time when new). -/
theorem storeLookup_storeWrite_self (st : List StoredFile) (n : String)
    (c : FileContent) (now : Int) :
    ∃ t, storeLookup (storeWrite st n c now) n = some ⟨n, c, t⟩ := by
  induction st with
  | nil => exact ⟨now, by simp [storeWrite, storeLookup]⟩
  | cons f fs ih =>
      by_cases hf : f.name = n
      · exact ⟨f.ctime, by simp [storeWrite, storeLookup, hf]⟩
      · obtain ⟨t, ht⟩ := ih
        refine ⟨t, ?_⟩
        simp only [storeWrite, storeLookup] at *
        simp [hf, ht]

/-- Writing one name leaves lookups of other names unchanged. -/
theorem storeLookup_storeWrite_ne (st : List StoredFile) (n m : String)
    (c : FileContent) (now : Int) (h : n ≠ m) :
    storeLookup (storeWrite st m c now) n = storeLookup st n := by
  induction st with
  | nil => simp [storeWrite, storeLookup, Ne.symm h]
  | cons f fs ih =>
      by_cases hf : f.name = m
      · simp [storeWrite, storeLookup, hf, Ne.symm h]
      · simp only [storeWrite, storeLookup] at *
        by_cases hfn : f.name = n
        · simp [hfn, h]
        · simp [hf, hfn, ih]

/-- Effect of a write on the name listing: overwriting keeps the listing,
creating appends the new name. -/
theorem storeNames_storeWrite (st : List StoredFile) (n : String)
    (c : FileContent) (now : Int) :
    storeNames (storeWrite st n c now) =
      if n ∈ storeNames st then storeNames st else storeNames st ++ [n] := by
  induction st with
  | nil => simp [storeWrite, storeNames]
  | cons f fs ih =>
      by_cases hf : f.name = n
      · simp [storeWrite, storeNames, hf]
      · simp only [storeWrite, storeNames, List.map_cons] at *
        by_cases hm : n ∈ List.map (fun f => f.name) fs
        · simp [hf, ih, hm, Ne.symm hf]
        · simp [hf, ih, hm, Ne.symm hf]

/-- Writing preserves distinctness of the names in the directory. -/
theorem storeNames_nodup_storeWrite (st : List StoredFile) (n : String)
    (c : FileContent) (now : Int) (h : (storeNames st).Nodup) :
    (storeNames (storeWrite st n c now)).Nodup := by
  rw [storeNames_storeWrite]
  by_cases hn : n ∈ storeNames st
  · simpa [hn] using h
  · simp [hn, List.nodup_append, h]

/-- Removing one name leaves lookups of other names unchanged. -/
theorem storeLookup_storeRemove_ne (st : List StoredFile) (n m : String) (h : n ≠ m) :
    storeLookup (storeRemove st m) n = storeLookup st n := by
  induction st with
  | nil => simp [storeRemove, storeLookup]
  | cons f fs ih =>
      by_cases hf : f.name = m
      · rw [storeRemove, List.eraseP_cons_of_pos (by simp [hf])]
        simp only [storeLookup]
        rw [List.find?_cons_of_neg _ (by simp [hf, Ne.symm h])]
      · rw [storeRemove, List.eraseP_cons_of_neg (by simp [hf])]
        simp only [storeLookup]
        by_cases hfn : f.name = n
        · rw [List.find?_cons_of_pos _ (by simp [hfn]), List.find?_cons_of_pos _ (by simp [hfn])]
        · rw [List.find?_cons_of_neg _ (by simp [hfn]), List.find?_cons_of_neg _ (by simp [hfn])]
          exact ih

/-- After removing a name from a directory with distinct names, the name
is gone. -/
theorem storeLookup_storeRemove_self (st : List StoredFile) (n : String)
    (h : (storeNames st).Nodup) :
    storeLookup (storeRemove st n) n = none := by
  induction st with
  | nil => simp [storeRemove, storeLookup]
  | cons f fs ih =>
      simp only [storeNames, List.map_cons, List.nodup_cons] at h
      by_cases hf : f.name = n
      · rw [storeRemove, List.eraseP_cons_of_pos (by simp [hf])]
        simp only [storeLookup]
        cases hl : List.find? (fun g => g.name == n) fs with
        | none => rfl
        | some g =>
            have hg := List.find?_some hl
            have hgm := List.mem_of_find?_eq_some hl
            simp only [beq_iff_eq] at hg
            exact absurd (by simpa [hg, hf] using
              List.mem_map_of_mem (fun x => x.name) hgm) h.1
      · rw [storeRemove, List.eraseP_cons_of_neg (by simp [hf])]
        simp only [storeLookup]
        rw [List.find?_cons_of_neg _ (by simp [hf])]
        exact ih h.2

/-- Removing preserves distinctness of the names. -/
theorem storeNames_nodup_storeRemove (st : List StoredFile) (n : String)
    (h : (storeNames st).Nodup) :
    (storeNames (storeRemove st n)).Nodup := by
  have hsub : List.Sublist (storeRemove st n) st := List.eraseP_sublist st
  have hmap : List.Sublist (storeNames (storeRemove st n)) (storeNames st) := by
    unfold storeNames
    exact List.Sublist.map (fun f => f.name) hsub
  exact List.Nodup.sublist hmap h

/-- The concatenation of copyfileobj's blocks is the whole file. -/
theorem chunksOf_flatten (k : Nat) (hk : 0 < k) (l : Bytes) :
    (chunksOf k l).flatten = l := by
  have main : ∀ n, ∀ l : Bytes, l.length ≤ n → (chunksOf k l).flatten = l := by
    intro n
    induction n with
    | zero =>
        intro l hl
        have hnil : l = [] := by
          cases l with
          | nil => rfl
          | cons a as => simp at hl
        subst hnil
        rw [chunksOf]
        simp
    | succ n ih =>
        intro l hl
        rw [chunksOf]
        by_cases h : l = [] ∨ k = 0
        · rcases h with h | h
          · subst h; simp
          · omega
        · push_neg at h
          rw [dif_neg (by tauto)]
          have hlen : l.length ≠ 0 := by
            intro hc
            exact h.1 (List.eq_nil_of_length_eq_zero hc)
          rw [List.flatten_cons, ih (List.drop k l) (by simp [List.length_drop]; omega)]
          exact List.take_append_drop k l
  exact main l.length l (le_refl _)

/-- Every block copyfileobj writes has at most the buffer size. -/
theorem chunksOf_length_le (k : Nat) (l : Bytes) :
    ∀ c ∈ chunksOf k l, c.length ≤ k := by
  have main : ∀ n, ∀ l : Bytes, l.length ≤ n → ∀ c ∈ chunksOf k l, c.length ≤ k := by
    intro n
    induction n with
    | zero =>
        intro l hl c hc
        have hnil : l = [] := by
          cases l with
          | nil => rfl
          | cons a as => simp at hl
        subst hnil
        rw [chunksOf] at hc
        simp at hc
    | succ n ih =>
        intro l hl c hc
        rw [chunksOf] at hc
        by_cases h : l = [] ∨ k = 0
        · rw [dif_pos h] at hc; simp at hc
        · push_neg at h
          rw [dif_neg (by tauto)] at hc
          have hlen : l.length ≠ 0 := by
            intro hc2
            exact h.1 (List.eq_nil_of_length_eq_zero hc2)
          rcases List.mem_cons.mp hc with hc | hc
          · subst hc
            simp [List.length_take]
          · exact ih (List.drop k l) (by simp [List.length_drop]; omega) c hc
  exact main l.length l (le_refl _)

/-- Folding the split-accumulator over slash-free characters appends
them all. -/
theorem foldl_no_slash (l : List Char) (acc : List Char) (h : ∀ c ∈ l, c ≠ '/') :
    l.foldl (fun acc c => if c = '/' then [] else acc ++ [c]) acc = acc ++ l := by
  induction l generalizing acc with
  | nil => simp
  | cons c cs ih =>
      have hc : c ≠ '/' := h c (by simp)
      simp only [List.foldl_cons]
      rw [if_neg hc]
      rw [ih _ (fun d hd => h d (by simp [hd]))]
      simp

/-- The characters of a /run/ request path. -/
theorem run_path_data (name : String) :
    ("/run/" ++ name).data = '/' :: 'r' :: 'u' :: 'n' :: '/' :: name.data := rfl

/-- The characters of a /download/ request path. -/
theorem download_path_data (name : String) :
    ("/download/" ++ name).data =
      '/' :: 'd' :: 'o' :: 'w' :: 'n' :: 'l' :: 'o' :: 'a' :: 'd' :: '/' :: name.data := rfl

/-- The final segment of /run/{name} is name, for slash-free names. -/
theorem lastSeg_run (name : String) (h : ∀ c ∈ name.data, c ≠ '/') :
    lastSeg ("/run/" ++ name) = name := by
  unfold lastSeg
  rw [run_path_data]
  simp only [List.foldl_cons]
  norm_num
  rw [foldl_no_slash name.data [] h]
  rfl

/-- The final segment of /download/{name} is name, for slash-free
names. -/
theorem lastSeg_download (name : String) (h : ∀ c ∈ name.data, c ≠ '/') :
    lastSeg ("/download/" ++ name) = name := by
  unfold lastSeg
  rw [download_path_data]
  simp only [List.foldl_cons]
  norm_num
  rw [foldl_no_slash name.data [] h]
  rfl

/-- /run/{name} starts with /run/. -/
theorem pyStartsWith_run (name : String) :
    pyStartsWith ("/run/" ++ name) "/run/" = true := by
  unfold pyStartsWith
  rw [run_path_data]
  simp [listIsPfx]

/-- /download/{name} starts with /download/ and not with /run/. -/
theorem pyStartsWith_download (name : String) :
    pyStartsWith ("/download/" ++ name) "/download/" = true ∧
    pyStartsWith ("/download/" ++ name) "/run/" = false := by
  unfold pyStartsWith
  rw [download_path_data]
  simp [listIsPfx]

/-- /run/{name} is not the root path. -/
theorem run_path_ne_root (name : String) : ("/run/" ++ name) ≠ "/" := by
  intro hc
  have := congrArg String.data hc
  rw [run_path_data] at this
  simp at this

/-- /download/{name} is not the root path. -/
theorem download_path_ne_root (name : String) : ("/download/" ++ name) ≠ "/" := by
  intro hc
  have := congrArg String.data hc
  rw [download_path_data] at this
  simp at this

/-- C8: every failure inside the background Job Runner unit -- a spawn
error, exceeding the fixed 300-second timeout (the process is killed and
the run treated as timed out), or an archive error (compress_folder
already returns failures as values) -- is caught by the unit's except
clauses and turned into log lines: for every environment the unit
returns normally (Except.ok), with the value of the total function
run_in_thread, so no exception reaches the Control Server. -/
theorem c8_failures_contained (venvExists : Bool) (o : JobOutcome)
    (script_name : String) (w : World) :
    run_in_thread_result venvExists o script_name w =
      Except.ok (run_in_thread venvExists o script_name w) := by
  unfold run_in_thread run_in_thread_result run_in_thread_body
  cases venvExists <;> cases o <;> simp

/-- C3 counterexample: on a concrete world the /cleanup response's JSON
keys are deleted_count and message -- the key deletedCount claimed in
the spec does not occur. -/
theorem c3_counterexample :
    responseJsonKeys (do_GET ⟨[], [], 0⟩ ⟨2025, 1, 1, 0, 0, 0, 0⟩ "/cleanup").response =
      ["deleted_count", "message"] ∧
    "deletedCount" ∉
      responseJsonKeys (do_GET ⟨[], [], 0⟩ ⟨2025, 1, 1, 0, 0, 0, 0⟩ "/cleanup").response := by
  constructor
  · rfl
  · intro hc
    rw [show responseJsonKeys (do_GET ⟨[], [], 0⟩ ⟨2025, 1, 1, 0, 0, 0, 0⟩ "/cleanup").response =
        ["deleted_count", "message"] from rfl] at hc
    simp at hc

/-- C3 (amended): every GET /cleanup request invokes the Retention
Manager (down_zip.cleanup_files, 7-day default window) and answers 200
JSON whose keys are deleted_count (the number of archives deleted) and
message (the summary string). -/
theorem c3_cleanup_route_response (w : World) (dt : PyDateTime) :
    (do_GET w dt "/cleanup").response =
      ⟨200, [("Content-type", "application/json")],
       HttpBody.json (Json.obj
         [("deleted_count", Json.num (Int.ofNat (down_zip_cleanup_files w).2.1)),
          ("message", Json.str (down_zip_cleanup_files w).2.2)])⟩ ∧
    (do_GET w dt "/cleanup").world = (down_zip_cleanup_files w).1 := by
  constructor <;> rfl

/-- In a directory with distinct names, each name occurs at most once. -/
theorem countName_le_one_of_nodup (st : List StoredFile) (n : String)
    (h : (storeNames st).Nodup) : countName st n ≤ 1 := by
  induction st with
  | nil => simp [countName]
  | cons f fs ih =>
      simp only [storeNames, List.map_cons, List.nodup_cons] at h
      by_cases hf : f.name = n
      · have hzero : countName fs n = 0 := by
          simp only [countName, List.length_eq_zero, List.filter_eq_nil_iff]
          intro g hg hbeq
          simp only [beq_iff_eq] at hbeq
          exact h.1 (by simpa [storeNames, hbeq, hf] using
            List.mem_map_of_mem (fun x => x.name) hg)
        have hcons : countName (f :: fs) n = countName fs n + 1 := by
          simp [countName, List.filter_cons, hf]
        rw [hcons, hzero]
      · simpa [countName, List.filter_cons, hf] using ih h.2

/-- Updating a directory listing makes it the one found. -/
theorem dirLookup_dirWrite_self (ds : List (String × List (String × Bytes)))
    (n : String) (files : List (String × Bytes)) :
    dirLookup (dirWrite ds n files) n = some files := by
  induction ds with
  | nil => simp [dirWrite, dirLookup]
  | cons d rest ih =>
      by_cases hd : d.fst = n
      · simp [dirWrite, dirLookup, hd]
      · simp only [dirWrite, dirLookup] at *
        simp [hd, ih]

/-- The one-step equation of compress_folder on an existing supported
folder: the archive directory gets the deflated archive of the folder's
recursive listing (arcnames relative to the folder's parent) written at
the fixed per-job name, and the call reports success with the fixed
path. -/
theorem compress_folder_spec (w : World) (folder_name : String)
    (files : List (String × Bytes))
    (hname : folder_name = "contents" ∨ folder_name = "comments")
    (hdir : dirLookup w.outputDirs folder_name = some files) :
    compress_folder w folder_name =
      ((⟨w.outputDirs,
         storeWrite w.store (folder_name ++ ".zip")
           (FileContent.zip ⟨CompMethod.deflated,
             files.map (fun f => (folder_name ++ "\\" ++ f.fst, f.snd))⟩) w.now,
         w.now⟩ : World),
       (true,
        "成功压缩: " ++ (folder_name ++ ".zip") ++ " (" ++ toString files.length
          ++ "个文件, " ++ format_file_size (fileSize (FileContent.zip
            ⟨CompMethod.deflated,
             files.map (fun f => (folder_name ++ "\\" ++ f.fst, f.snd))⟩)) ++ ")",
        some (pathJoin zips_path (folder_name ++ ".zip")))) := by
  rcases hname with h | h <;> subst h <;>
  · unfold compress_folder
    rw [if_neg (by simp)]
    rw [hdir]

/-- The response of a request step does not depend on whether or how the
background thread later runs. -/
theorem serverStep_response (w : World) (dt : PyDateTime) (p : String)
    (ve : Bool) (o : JobOutcome) :
    (serverStep w dt p ve o).1.response = (do_GET w dt p).response := by
  unfold serverStep
  cases h : (do_GET w dt p).thread <;> simp [h]

/-- C9: for every existing output directory of a supported job,
compress_folder succeeds, reports the fixed per-job archive path, and
writes a deflate-compressed archive there -- replacing whatever file had
that name -- containing exactly the directory's recursively enumerated
regular files, each entry named by the file's path relative to the
output directory's parent (folder name prefixed), while every other
stored file and the output directories stay untouched. -/
theorem c9_compress_folder (w : World) (folder_name : String)
    (files : List (String × Bytes))
    (hname : folder_name = "contents" ∨ folder_name = "comments")
    (hdir : dirLookup w.outputDirs folder_name = some files) :
    (compress_folder w folder_name).2.1 = true ∧
    (compress_folder w folder_name).2.2.2 =
      some (pathJoin zips_path (folder_name ++ ".zip")) ∧
    (∃ t, storeLookup (compress_folder w folder_name).1.store (folder_name ++ ".zip") =
      some ⟨folder_name ++ ".zip",
        FileContent.zip ⟨CompMethod.deflated,
          files.map (fun f => (folder_name ++ "\\" ++ f.fst, f.snd))⟩, t⟩) ∧
    (∀ n, n ≠ folder_name ++ ".zip" →
      storeLookup (compress_folder w folder_name).1.store n = storeLookup w.store n) ∧
    (compress_folder w folder_name).1.outputDirs = w.outputDirs := by
  rw [compress_folder_spec w folder_name files hname hdir]
  refine ⟨rfl, rfl, ?_, ?_, rfl⟩
  · exact storeLookup_storeWrite_self w.store (folder_name ++ ".zip") _ w.now
  · intro n hn
    exact storeLookup_storeWrite_ne w.store n (folder_name ++ ".zip") _ w.now hn

/-- C9 witness: compressing a concrete two-file contents directory. -/
theorem c9_witness :
    (compress_folder ⟨[("contents", [("a.txt", [65]), ("sub\\b.txt", [66, 67])])], [], 9⟩
        "contents").2.1 = true ∧
    (∃ t, storeLookup
        (compress_folder ⟨[("contents", [("a.txt", [65]), ("sub\\b.txt", [66, 67])])], [], 9⟩
          "contents").1.store ("contents" ++ ".zip") =
      some ⟨"contents" ++ ".zip",
        FileContent.zip ⟨CompMethod.deflated,
          [("a.txt", ([65] : Bytes)), ("sub\\b.txt", [66, 67])].map
            (fun f => ("contents" ++ "\\" ++ f.fst, f.snd))⟩, t⟩) :=
  let h := c9_compress_folder
    ⟨[("contents", [("a.txt", [65]), ("sub\\b.txt", [66, 67])])], [], 9⟩
    "contents" [("a.txt", [65]), ("sub\\b.txt", [66, 67])] (Or.inl rfl) rfl
  ⟨h.1, h.2.2.1⟩

/-- C1 counterexample: a run whose process exits with the non-zero code 1
still gets its output directory archived (the venv path never inspects
result.returncode), contradicting the claim that on non-zero exit no
archive is written. -/
theorem c1_counterexample :
    (1 : Int) ≠ 0 ∧
    storeLookup (run_in_thread true (JobOutcome.completed 1 "" "") "contents"
        ⟨[("contents", [("a.txt", [65])])], [], 0⟩).1.store "contents.zip" =
      some ⟨"contents.zip",
        FileContent.zip ⟨CompMethod.deflated, [("contents\\a.txt", [65])]⟩, 0⟩ := by
  exact ⟨by decide, rfl⟩

/-- C1 (amended): when the virtual-environment interpreter exists, a
completed job run is followed by an Archive Manager invocation on the
job's output directory regardless of the exit code -- a non-zero exit
changes nothing, as result.returncode is never read; when the venv is
absent, the fallback path never archives at all, so the run leaves the
filesystem untouched. -/
theorem c1_archive_regardless_of_exit (w : World) (ec : Int) (sout serr : String)
    (name : String) (files : List (String × Bytes))
    (hname : name = "contents" ∨ name = "comments")
    (hdir : dirLookup w.outputDirs name = some files) :
    (∃ t, storeLookup
        (run_in_thread true (JobOutcome.completed ec sout serr) name w).1.store
        (name ++ ".zip") =
      some ⟨name ++ ".zip",
        FileContent.zip ⟨CompMethod.deflated,
          files.map (fun f => (name ++ "\\" ++ f.fst, f.snd))⟩, t⟩) ∧
    (run_in_thread false (JobOutcome.completed ec sout serr) name w).1 = w := by
  constructor
  · have hw : (run_in_thread true (JobOutcome.completed ec sout serr) name w).1 =
        (compress_folder w name).1 := by
      rcases hname with h | h <;> subst h <;>
        simp [run_in_thread, run_in_thread_result, run_in_thread_body,
          compress_contents, compress_comments]
    rw [hw, compress_folder_spec w name files hname hdir]
    exact storeLookup_storeWrite_self w.store (name ++ ".zip") _ w.now
  · rfl

/-- C1 witness: exit code 2 with the venv present archives the directory;
without the venv nothing is archived. -/
theorem c1_witness :
    (∃ t, storeLookup
        (run_in_thread true (JobOutcome.completed 2 "out" "err") "comments"
          ⟨[("comments", [("c.txt", [67])])], [], 3⟩).1.store
        ("comments" ++ ".zip") =
      some ⟨"comments" ++ ".zip",
        FileContent.zip ⟨CompMethod.deflated,
          [("c.txt", ([67] : Bytes))].map (fun f => ("comments" ++ "\\" ++ f.fst, f.snd))⟩, t⟩) ∧
    (run_in_thread false (JobOutcome.completed 2 "out" "err") "comments"
        ⟨[("comments", [("c.txt", [67])])], [], 3⟩).1 =
      ⟨[("comments", [("c.txt", [67])])], [], 3⟩ :=
  c1_archive_regardless_of_exit ⟨[("comments", [("c.txt", [67])])], [], 3⟩
    2 "out" "err" "comments" [("c.txt", [67])] (Or.inr rfl) rfl

/-- C4: at most one archive file exists per job name (write and delete
both preserve distinct names, so a directory that starts well-formed
keeps at most one file at the job's fixed archive name), and a second
successful run of the same job fully replaces the archive: after run #2
the stored archive is exactly the deflated snapshot of run #2's output
directory, with no trace of run #1's files. -/
theorem c4_archive_replacement (w : World) (name : String)
    (d1 d2 : List (String × Bytes))
    (hname : name = "contents" ∨ name = "comments")
    (hnodup : (storeNames w.store).Nodup) :
    countName
      (compress_folder
        ⟨dirWrite
          (compress_folder ⟨dirWrite w.outputDirs name d1, w.store, w.now⟩ name).1.outputDirs
          name d2,
         (compress_folder ⟨dirWrite w.outputDirs name d1, w.store, w.now⟩ name).1.store,
         w.now⟩ name).1.store (name ++ ".zip") ≤ 1 ∧
    (∃ t, storeLookup
      (compress_folder
        ⟨dirWrite
          (compress_folder ⟨dirWrite w.outputDirs name d1, w.store, w.now⟩ name).1.outputDirs
          name d2,
         (compress_folder ⟨dirWrite w.outputDirs name d1, w.store, w.now⟩ name).1.store,
         w.now⟩ name).1.store (name ++ ".zip") =
      some ⟨name ++ ".zip",
        FileContent.zip ⟨CompMethod.deflated,
          d2.map (fun f => (name ++ "\\" ++ f.fst, f.snd))⟩, t⟩) := by
  have hd1 : dirLookup (dirWrite w.outputDirs name d1) name = some d1 :=
    dirLookup_dirWrite_self w.outputDirs name d1
  have hrun1 := compress_folder_spec ⟨dirWrite w.outputDirs name d1, w.store, w.now⟩
    name d1 hname hd1
  rw [hrun1]
  have hd2 : dirLookup (dirWrite (dirWrite w.outputDirs name d1) name d2) name = some d2 :=
    dirLookup_dirWrite_self (dirWrite w.outputDirs name d1) name d2
  have hrun2 := compress_folder_spec
    ⟨dirWrite (dirWrite w.outputDirs name d1) name d2,
     storeWrite w.store (name ++ ".zip")
       (FileContent.zip ⟨CompMethod.deflated,
         d1.map (fun f => (name ++ "\\" ++ f.fst, f.snd))⟩) w.now,
     w.now⟩ name d2 hname hd2
  rw [hrun2]
  constructor
  · exact countName_le_one_of_nodup _ _
      (storeNames_nodup_storeWrite _ _ _ _ (storeNames_nodup_storeWrite _ _ _ _ hnodup))
  · exact storeLookup_storeWrite_self _ (name ++ ".zip") _ w.now

/-- C4 witness: run #1 archives files x and y, run #2 archives only z;
afterwards exactly one contents archive exists and it holds only z. -/
theorem c4_witness :
    countName
      (compress_folder
        ⟨dirWrite
          (compress_folder ⟨dirWrite [] "contents" [("x.txt", [1]), ("y.txt", [2])],
             [], 0⟩ "contents").1.outputDirs
          "contents" [("z.txt", [3])],
         (compress_folder ⟨dirWrite [] "contents" [("x.txt", [1]), ("y.txt", [2])],
            [], 0⟩ "contents").1.store,
         0⟩ "contents").1.store ("contents" ++ ".zip") ≤ 1 ∧
    (∃ t, storeLookup
      (compress_folder
        ⟨dirWrite
          (compress_folder ⟨dirWrite [] "contents" [("x.txt", [1]), ("y.txt", [2])],
             [], 0⟩ "contents").1.outputDirs
          "contents" [("z.txt", [3])],
         (compress_folder ⟨dirWrite [] "contents" [("x.txt", [1]), ("y.txt", [2])],
            [], 0⟩ "contents").1.store,
         0⟩ "contents").1.store ("contents" ++ ".zip") =
      some ⟨"contents" ++ ".zip",
        FileContent.zip ⟨CompMethod.deflated,
          [("z.txt", ([3] : Bytes))].map (fun f => ("contents" ++ "\\" ++ f.fst, f.snd))⟩, t⟩) :=
  c4_archive_replacement ⟨[], [], 0⟩ "contents" [("x.txt", [1]), ("y.txt", [2])]
    [("z.txt", [3])] (Or.inl rfl) (by simp [storeNames])

/-- C5: for every GET /run/{jobName} request with a single-segment name:
an unregistered name is answered 404 (Script not found) and no thread is
started; a registered name starts the background thread and is
immediately answered with the fixed 200 plain-text acknowledgment --
which is the same whatever the virtual environment or the job's eventual
outcome, i.e. acceptance, not completion. -/
theorem c5_run_route (name : String) (w : World) (dt : PyDateTime)
    (hseg : ∀ c ∈ name.data, c ≠ '/') :
    (scriptLookup name = none →
      (do_GET w dt ("/run/" ++ name)).response = send_error 404 "Script not found" ∧
      (do_GET w dt ("/run/" ++ name)).thread = none) ∧
    (∀ p, scriptLookup name = some p →
      (do_GET w dt ("/run/" ++ name)).response =
        ⟨200, [("Content-type", "text/plain; charset=utf-8")],
         HttpBody.text ("已启动 " ++ name ++ " 脚本，正在分析数据...")⟩ ∧
      (do_GET w dt ("/run/" ++ name)).thread = some ⟨name⟩ ∧
      ∀ ve o ve2 o2,
        (serverStep w dt ("/run/" ++ name) ve o).1.response =
          (serverStep w dt ("/run/" ++ name) ve2 o2).1.response) := by
  have hroute : do_GET w dt ("/run/" ++ name) =
      ⟨w, (run_script name).1, (run_script name).2⟩ := by
    unfold do_GET
    rw [if_neg (run_path_ne_root name), if_pos (pyStartsWith_run name),
      lastSeg_run name hseg]
  constructor
  · intro hn
    rw [hroute]
    unfold run_script
    rw [hn]
    exact ⟨rfl, rfl⟩
  · intro p hp
    refine ⟨?_, ?_, ?_⟩
    · rw [hroute]
      unfold run_script
      rw [hp]
    · rw [hroute]
      unfold run_script
      rw [hp]
    · intro ve o ve2 o2
      rw [serverStep_response, serverStep_response]

/-- C5 witness: triggering the registered contents job returns the fixed
acknowledgment. -/
theorem c5_witness :
    (do_GET ⟨[], [], 0⟩ ⟨2025, 1, 1, 0, 0, 0, 0⟩ ("/run/" ++ "contents")).response =
      ⟨200, [("Content-type", "text/plain; charset=utf-8")],
       HttpBody.text ("已启动 " ++ "contents" ++ " 脚本，正在分析数据...")⟩ :=
  ((c5_run_route "contents" ⟨[], [], 0⟩ ⟨2025, 1, 1, 0, 0, 0, 0⟩ (by decide)).2
    "D:\\AutoViewScript\\contents.py" rfl).1

/-- Every entry the listing produces comes from a probed fixed name that
exists in the directory. -/
theorem mem_get_available_files (st : List StoredFile) (e : ArchiveEntry)
    (he : e ∈ get_available_files st) :
    e.name ∈ zip_files ∧ (storeLookup st e.name).isSome = true := by
  unfold get_available_files at he
  rcases List.mem_filterMap.mp he with ⟨zf, hzf, hmk⟩
  cases hl : storeLookup st zf with
  | none => rw [hl] at hmk; simp at hmk
  | some g =>
      rw [hl] at hmk
      simp only [Option.some.injEq] at hmk
      have hname : e.name = zf := by rw [← hmk]
      rw [hname, hl]
      exact ⟨hzf, rfl⟩

/-- The download handler: 404 exactly when no probed archive of that name
exists; otherwise the 200 response with the listed size as
Content-Length and the file's bytes chunked by copyfileobj. -/
theorem download_file_spec (w : World) (name : String) :
    (¬ (name ∈ zip_files ∧ (storeLookup w.store name).isSome = true) →
      download_file w name = send_error 404 "File not found") ∧
    (∀ f, name ∈ zip_files → storeLookup w.store name = some f →
      download_file w name =
        ⟨200,
         [("Content-type", "application/zip"),
          ("Content-Disposition", "attachment; filename=\"" ++ latin1OfUtf8 name ++ "\""),
          ("Content-Length", toString (fileSize f.content))],
         HttpBody.stream (chunksOf COPY_BUFSIZE (fileBytes f.content))⟩) := by
  constructor
  · intro hno
    unfold download_file
    have hf : (get_available_files w.store).find? (fun e => e.name == name) = none := by
      rw [List.find?_eq_none]
      intro e he hbeq
      simp only [beq_iff_eq] at hbeq
      rcases mem_get_available_files w.store e he with ⟨hz, hs⟩
      exact hno ⟨hbeq ▸ hz, hbeq ▸ hs⟩
    rw [hf]
  · intro f hmem hl
    have hmem2 : name = "contents.zip" ∨ name = "comments.zip" := by
      simpa [zip_files] using hmem
    rcases hmem2 with hn | hn <;> subst hn
    · have hfind : (get_available_files w.store).find? (fun e => e.name == "contents.zip") =
          some ⟨"contents.zip", pathJoin zips_path "contents.zip",
                fileSize f.content, f.ctime⟩ := by
        simp only [get_available_files, zip_files, List.filterMap_cons, hl]
        rw [List.find?_cons_of_pos _ (by simp)]
      unfold download_file
      rw [hfind]
      simp [hl]
    · have hfind : (get_available_files w.store).find? (fun e => e.name == "comments.zip") =
          some ⟨"comments.zip", pathJoin zips_path "comments.zip",
                fileSize f.content, f.ctime⟩ := by
        cases hc : storeLookup w.store "contents.zip" with
        | none =>
            simp only [get_available_files, zip_files, List.filterMap_cons, hc,
              List.filterMap_nil, hl]
            rw [List.find?_cons_of_pos _ (by simp)]
        | some g =>
            simp only [get_available_files, zip_files, List.filterMap_cons, hc,
              List.filterMap_nil, hl]
            rw [List.find?_cons_of_neg _ (by simp), List.find?_cons_of_pos _ (by simp)]
      unfold download_file
      rw [hfind]
      simp [hl]

/-- C7: for every GET /download/{archiveName} request with a
single-segment name: when no archive entry matches, the response is 404;
when one matches, the response is 200 with Content-Length equal to the
file's on-disk size, the attachment filename byte-safely re-encoded, and
a body streamed in blocks of at most COPY_BUFSIZE bytes whose
concatenation is byte-identical to the on-disk file. -/
theorem c7_download_route (w : World) (name : String) (dt : PyDateTime)
    (hseg : ∀ c ∈ name.data, c ≠ '/') :
    (¬ (name ∈ zip_files ∧ (storeLookup w.store name).isSome = true) →
      (do_GET w dt ("/download/" ++ name)).response = send_error 404 "File not found") ∧
    (∀ f, name ∈ zip_files → storeLookup w.store name = some f →
      (do_GET w dt ("/download/" ++ name)).response =
        ⟨200,
         [("Content-type", "application/zip"),
          ("Content-Disposition", "attachment; filename=\"" ++ latin1OfUtf8 name ++ "\""),
          ("Content-Length", toString (fileSize f.content))],
         HttpBody.stream (chunksOf COPY_BUFSIZE (fileBytes f.content))⟩ ∧
      fileSize f.content = (fileBytes f.content).length ∧
      (chunksOf COPY_BUFSIZE (fileBytes f.content)).flatten = fileBytes f.content ∧
      (∀ c ∈ chunksOf COPY_BUFSIZE (fileBytes f.content), c.length ≤ COPY_BUFSIZE)) := by
  have hroute : do_GET w dt ("/download/" ++ name) = ⟨w, download_file w name, none⟩ := by
    unfold do_GET
    rw [if_neg (download_path_ne_root name),
      if_neg (by simp [(pyStartsWith_download name).2]),
      if_pos (pyStartsWith_download name).1,
      lastSeg_download name hseg]
  constructor
  · intro hno
    rw [hroute]
    exact (download_file_spec w name).1 hno
  · intro f hmem hl
    refine ⟨?_, rfl, chunksOf_flatten COPY_BUFSIZE (by norm_num [COPY_BUFSIZE]) _,
      chunksOf_length_le COPY_BUFSIZE _⟩
    rw [hroute]
    exact (download_file_spec w name).2 f hmem hl

/-- C7 witness: downloading a concrete three-byte contents archive
returns it whole in one block with Content-Length 3. -/
theorem c7_witness :
    (do_GET ⟨[], [⟨"contents.zip", FileContent.raw [1, 2, 3], 5⟩], 100⟩
        ⟨2025, 1, 1, 0, 0, 0, 0⟩ ("/download/" ++ "contents.zip")).response =
      ⟨200,
       [("Content-type", "application/zip"),
        ("Content-Disposition",
         "attachment; filename=\"" ++ latin1OfUtf8 "contents.zip" ++ "\""),
        ("Content-Length", toString (fileSize (FileContent.raw [1, 2, 3])))],
       HttpBody.stream (chunksOf COPY_BUFSIZE (fileBytes (FileContent.raw [1, 2, 3])))⟩ ∧
    (chunksOf COPY_BUFSIZE (fileBytes (FileContent.raw [1, 2, 3]))).flatten =
      fileBytes (FileContent.raw [1, 2, 3]) :=
  let h := (c7_download_route ⟨[], [⟨"contents.zip", FileContent.raw [1, 2, 3], 5⟩], 100⟩
    "contents.zip" ⟨2025, 1, 1, 0, 0, 0, 0⟩ (by decide)).2
    ⟨"contents.zip", FileContent.raw [1, 2, 3], 5⟩ (by decide) rfl
  ⟨h.1, h.2.2.1⟩

/-- C6: for every retention window of d days, a cleanup run (with no OS
errors) deletes exactly those probed archives whose creation time is
strictly more than d days (in seconds) before the current time, leaves
every younger archive and every other file untouched, returns the number
of deleted files, and reports it in the summary message.  The /cleanup
route invokes this with the default window of 7 days
(down_zip_cleanup_files). -/
theorem c6_cleanup_retention (w : World) (days : Nat)
    (hnodup : (storeNames w.store).Nodup) :
    (∀ n, n ∈ zip_files →
      storeLookup (cleanup_old_files w days).1.store n =
        if isOld w.store (w.now - (days : Int) * 24 * 60 * 60) n then none
        else storeLookup w.store n) ∧
    (∀ n, n ∉ zip_files →
      storeLookup (cleanup_old_files w days).1.store n = storeLookup w.store n) ∧
    (cleanup_old_files w days).2.1 =
      (zip_files.filter
        (fun n => isOld w.store (w.now - (days : Int) * 24 * 60 * 60) n)).length ∧
    (cleanup_old_files w days).2.2 =
      "清理了 " ++ toString (cleanup_old_files w days).2.1 ++ " 个旧文件" ∧
    (cleanup_old_files w days).1.outputDirs = w.outputDirs ∧
    (cleanup_old_files w days).1.now = w.now := by
  have hne : ("comments.zip" : String) ≠ "contents.zip" := by decide
  rcases h1 : storeLookup w.store "contents.zip" with _ | f1 <;>
    rcases h2 : storeLookup w.store "comments.zip" with _ | f2
  · have heq : cleanup_old_files w days =
        (⟨w.outputDirs, w.store, w.now⟩, 0, "清理了 " ++ toString 0 ++ " 个旧文件") := by
      unfold cleanup_old_files cleanup_old_files_run
      simp only [get_available_files, zip_files, List.filterMap_cons, List.filterMap_nil,
        h1, h2, cleanupLoop]
    rw [heq]
    refine ⟨?_, fun n _ => rfl, ?_, rfl, rfl, rfl⟩
    · intro n hn
      rcases (by simpa [zip_files] using hn : n = "contents.zip" ∨ n = "comments.zip") with
        rfl | rfl <;> simp [isOld, h1, h2]
    · simp [zip_files, isOld, h1, h2]
  · by_cases hc2 : f2.ctime < w.now - (days : Int) * 24 * 60 * 60
    · have heq : cleanup_old_files w days =
          (⟨w.outputDirs, storeRemove w.store "comments.zip", w.now⟩, 1,
           "清理了 " ++ toString 1 ++ " 个旧文件") := by
        unfold cleanup_old_files cleanup_old_files_run
        simp only [get_available_files, zip_files, List.filterMap_cons, List.filterMap_nil,
          h1, h2]
        simp only [cleanupLoop, h2]
        rw [if_pos hc2, if_neg (List.not_mem_nil _)]
      rw [heq]
      refine ⟨?_, ?_, ?_, rfl, rfl, rfl⟩
      · intro n hn
        rcases (by simpa [zip_files] using hn : n = "contents.zip" ∨ n = "comments.zip") with
          rfl | rfl
        · rw [storeLookup_storeRemove_ne _ _ _ (Ne.symm hne)]
          simp [isOld, h1]
        · simp [isOld, h2, hc2]
          exact storeLookup_storeRemove_self w.store _ hnodup
      · intro n hn
        have hn2 : n ≠ "comments.zip" := by
          intro hcn; exact hn (by simp [zip_files, hcn])
        exact storeLookup_storeRemove_ne _ _ _ hn2
      · simp [zip_files, isOld, h1, h2, hc2]
    · have heq : cleanup_old_files w days =
          (⟨w.outputDirs, w.store, w.now⟩, 0, "清理了 " ++ toString 0 ++ " 个旧文件") := by
        unfold cleanup_old_files cleanup_old_files_run
        simp only [get_available_files, zip_files, List.filterMap_cons, List.filterMap_nil,
          h1, h2]
        simp only [cleanupLoop, h2]
        rw [if_neg hc2]
      rw [heq]
      refine ⟨?_, fun n _ => rfl, ?_, rfl, rfl, rfl⟩
      · intro n hn
        rcases (by simpa [zip_files] using hn : n = "contents.zip" ∨ n = "comments.zip") with
          rfl | rfl
        · simp [isOld, h1]
        · simp [isOld, h2, hc2]
      · simp [zip_files, isOld, h1, h2, hc2]
  · by_cases hc1 : f1.ctime < w.now - (days : Int) * 24 * 60 * 60
    · have heq : cleanup_old_files w days =
          (⟨w.outputDirs, storeRemove w.store "contents.zip", w.now⟩, 1,
           "清理了 " ++ toString 1 ++ " 个旧文件") := by
        unfold cleanup_old_files cleanup_old_files_run
        simp only [get_available_files, zip_files, List.filterMap_cons, List.filterMap_nil,
          h1, h2]
        simp only [cleanupLoop, h1]
        rw [if_pos hc1, if_neg (List.not_mem_nil _)]
      rw [heq]
      refine ⟨?_, ?_, ?_, rfl, rfl, rfl⟩
      · intro n hn
        rcases (by simpa [zip_files] using hn : n = "contents.zip" ∨ n = "comments.zip") with
          rfl | rfl
        · simp [isOld, h1, hc1]
          exact storeLookup_storeRemove_self w.store _ hnodup
        · rw [storeLookup_storeRemove_ne _ _ _ hne]
          simp [isOld, h2]
      · intro n hn
        have hn1 : n ≠ "contents.zip" := by
          intro hcn; exact hn (by simp [zip_files, hcn])
        exact storeLookup_storeRemove_ne _ _ _ hn1
      · simp [zip_files, isOld, h1, h2, hc1]
    · have heq : cleanup_old_files w days =
          (⟨w.outputDirs, w.store, w.now⟩, 0, "清理了 " ++ toString 0 ++ " 个旧文件") := by
        unfold cleanup_old_files cleanup_old_files_run
        simp only [get_available_files, zip_files, List.filterMap_cons, List.filterMap_nil,
          h1, h2]
        simp only [cleanupLoop, h1]
        rw [if_neg hc1]
      rw [heq]
      refine ⟨?_, fun n _ => rfl, ?_, rfl, rfl, rfl⟩
      · intro n hn
        rcases (by simpa [zip_files] using hn : n = "contents.zip" ∨ n = "comments.zip") with
          rfl | rfl
        · simp [isOld, h1, hc1]
        · simp [isOld, h2]
      · simp [zip_files, isOld, h1, h2, hc1]
  · have hrm : storeLookup (storeRemove w.store "contents.zip") "comments.zip" = some f2 := by
      rw [storeLookup_storeRemove_ne _ _ _ hne, h2]
    by_cases hc1 : f1.ctime < w.now - (days : Int) * 24 * 60 * 60 <;>
      by_cases hc2 : f2.ctime < w.now - (days : Int) * 24 * 60 * 60
    · have heq : cleanup_old_files w days =
          (⟨w.outputDirs, storeRemove (storeRemove w.store "contents.zip") "comments.zip",
            w.now⟩, 2, "清理了 " ++ toString 2 ++ " 个旧文件") := by
        unfold cleanup_old_files cleanup_old_files_run
        simp only [get_available_files, zip_files, List.filterMap_cons, List.filterMap_nil,
          h1, h2]
        simp only [cleanupLoop, h1]
        rw [if_pos hc1, if_neg (List.not_mem_nil _)]
        simp only [cleanupLoop, hrm]
        rw [if_pos hc2, if_neg (List.not_mem_nil _)]
      rw [heq]
      refine ⟨?_, ?_, ?_, rfl, rfl, rfl⟩
      · intro n hn
        rcases (by simpa [zip_files] using hn : n = "contents.zip" ∨ n = "comments.zip") with
          rfl | rfl
        · simp [isOld, h1, hc1]
          rw [storeLookup_storeRemove_ne _ _ _ (Ne.symm hne)]
          exact storeLookup_storeRemove_self w.store _ hnodup
        · simp [isOld, h2, hc2]
          exact storeLookup_storeRemove_self (storeRemove w.store "contents.zip") _
            (storeNames_nodup_storeRemove _ _ hnodup)
      · intro n hn
        have hn1 : n ≠ "contents.zip" := by
          intro hcn; exact hn (by simp [zip_files, hcn])
        have hn2 : n ≠ "comments.zip" := by
          intro hcn; exact hn (by simp [zip_files, hcn])
        rw [storeLookup_storeRemove_ne _ _ _ hn2, storeLookup_storeRemove_ne _ _ _ hn1]
      · simp [zip_files, isOld, h1, h2, hc1, hc2]
    · have heq : cleanup_old_files w days =
          (⟨w.outputDirs, storeRemove w.store "contents.zip", w.now⟩, 1,
           "清理了 " ++ toString 1 ++ " 个旧文件") := by
        unfold cleanup_old_files cleanup_old_files_run
        simp only [get_available_files, zip_files, List.filterMap_cons, List.filterMap_nil,
          h1, h2]
        simp only [cleanupLoop, h1]
        rw [if_pos hc1, if_neg (List.not_mem_nil _)]
        simp only [cleanupLoop, hrm]
        rw [if_neg hc2]
      rw [heq]
      refine ⟨?_, ?_, ?_, rfl, rfl, rfl⟩
      · intro n hn
        rcases (by simpa [zip_files] using hn : n = "contents.zip" ∨ n = "comments.zip") with
          rfl | rfl
        · simp [isOld, h1, hc1]
          exact storeLookup_storeRemove_self w.store _ hnodup
        · simp [isOld, h2, hc2]
          exact hrm
      · intro n hn
        have hn1 : n ≠ "contents.zip" := by
          intro hcn; exact hn (by simp [zip_files, hcn])
        exact storeLookup_storeRemove_ne _ _ _ hn1
      · simp [zip_files, isOld, h1, h2, hc1, hc2]
    · have heq : cleanup_old_files w days =
          (⟨w.outputDirs, storeRemove w.store "comments.zip", w.now⟩, 1,
           "清理了 " ++ toString 1 ++ " 个旧文件") := by
        unfold cleanup_old_files cleanup_old_files_run
        simp only [get_available_files, zip_files, List.filterMap_cons, List.filterMap_nil,
          h1, h2]
        simp only [cleanupLoop, h1]
        rw [if_neg hc1]
        simp only [cleanupLoop, h2]
        rw [if_pos hc2, if_neg (List.not_mem_nil _)]
      rw [heq]
      refine ⟨?_, ?_, ?_, rfl, rfl, rfl⟩
      · intro n hn
        rcases (by simpa [zip_files] using hn : n = "contents.zip" ∨ n = "comments.zip") with
          rfl | rfl
        · simp [isOld, h1, hc1]
          rw [storeLookup_storeRemove_ne _ _ _ (Ne.symm hne), h1]
        · simp [isOld, h2, hc2]
          exact storeLookup_storeRemove_self w.store _ hnodup
      · intro n hn
        have hn2 : n ≠ "comments.zip" := by
          intro hcn; exact hn (by simp [zip_files, hcn])
        exact storeLookup_storeRemove_ne _ _ _ hn2
      · simp [zip_files, isOld, h1, h2, hc1, hc2]
    · have heq : cleanup_old_files w days =
          (⟨w.outputDirs, w.store, w.now⟩, 0, "清理了 " ++ toString 0 ++ " 个旧文件") := by
        unfold cleanup_old_files cleanup_old_files_run
        simp only [get_available_files, zip_files, List.filterMap_cons, List.filterMap_nil,
          h1, h2]
        simp only [cleanupLoop, h1]
        rw [if_neg hc1]
        simp only [cleanupLoop, h2]
        rw [if_neg hc2]
      rw [heq]
      refine ⟨?_, fun n _ => rfl, ?_, rfl, rfl, rfl⟩
      · intro n hn
        rcases (by simpa [zip_files] using hn : n = "contents.zip" ∨ n = "comments.zip") with
          rfl | rfl
        · simp [isOld, h1, hc1]
        · simp [isOld, h2, hc2]
      · simp [zip_files, isOld, h1, h2, hc1, hc2]

/-- C6 witness: with a 7-day window, an archive created at time 0 is
deleted and one created 1000 seconds ago survives; the reported count is
1 and the message names it. -/
theorem c6_witness :
    storeLookup (cleanup_old_files ⟨[], [⟨"contents.zip", FileContent.raw [1], 0⟩,
        ⟨"comments.zip", FileContent.raw [2], 999000⟩], 1000000⟩ 7).1.store
      "contents.zip" = none ∧
    storeLookup (cleanup_old_files ⟨[], [⟨"contents.zip", FileContent.raw [1], 0⟩,
        ⟨"comments.zip", FileContent.raw [2], 999000⟩], 1000000⟩ 7).1.store
      "comments.zip" = some ⟨"comments.zip", FileContent.raw [2], 999000⟩ ∧
    (cleanup_old_files ⟨[], [⟨"contents.zip", FileContent.raw [1], 0⟩,
        ⟨"comments.zip", FileContent.raw [2], 999000⟩], 1000000⟩ 7).2.1 = 1 ∧
    (cleanup_old_files ⟨[], [⟨"contents.zip", FileContent.raw [1], 0⟩,
        ⟨"comments.zip", FileContent.raw [2], 999000⟩], 1000000⟩ 7).2.2 =
      "清理了 " ++ toString 1 ++ " 个旧文件" := by
  have h := c6_cleanup_retention ⟨[], [⟨"contents.zip", FileContent.raw [1], 0⟩,
    ⟨"comments.zip", FileContent.raw [2], 999000⟩], 1000000⟩ 7 (by decide)
  refine ⟨?_, ?_, ?_, ?_⟩
  · rw [h.1 "contents.zip" (by decide)]
    decide
  · rw [h.1 "comments.zip" (by decide)]
    decide
  · rw [h.2.2.1]
    decide
  · rw [h.2.2.2.1, h.2.2.1]
    decide

/-- C10: when os.remove raises partway through cleanup (here on
comments.zip, after contents.zip was already deleted), the except clause
returns a deleted count of 0 with the error message -- yet the deletion
already performed is not rolled back: contents.zip, present beforehand,
is gone afterwards, so the returned count under-reports the removals. -/
theorem c10_cleanup_error_count (w : World) (days : Nat) (f1 f2 : StoredFile)
    (hnodup : (storeNames w.store).Nodup)
    (h1 : storeLookup w.store "contents.zip" = some f1)
    (h2 : storeLookup w.store "comments.zip" = some f2)
    (hc1 : f1.ctime < w.now - (days : Int) * 24 * 60 * 60)
    (hc2 : f2.ctime < w.now - (days : Int) * 24 * 60 * 60) :
    (cleanup_old_files_run ["comments.zip"] w days).2.1 = 0 ∧
    (cleanup_old_files_run ["comments.zip"] w days).2.2 =
      "清理文件时出错: " ++ ("无法删除: " ++ "comments.zip") ∧
    storeLookup (cleanup_old_files_run ["comments.zip"] w days).1.store
      "contents.zip" = none ∧
    storeLookup w.store "contents.zip" ≠ none := by
  have hrm : storeLookup (storeRemove w.store "contents.zip") "comments.zip" = some f2 := by
    rw [storeLookup_storeRemove_ne _ _ _ (by decide), h2]
  have heq : cleanup_old_files_run ["comments.zip"] w days =
      (⟨w.outputDirs, storeRemove w.store "contents.zip", w.now⟩, 0,
       "清理文件时出错: " ++ ("无法删除: " ++ "comments.zip")) := by
    unfold cleanup_old_files_run
    simp only [get_available_files, zip_files, List.filterMap_cons, List.filterMap_nil,
      h1, h2]
    simp only [cleanupLoop, h1]
    rw [if_pos hc1,
      if_neg (by decide : ¬ ("contents.zip" ∈ (["comments.zip"] : List String)))]
    simp only [cleanupLoop, hrm]
    rw [if_pos hc2,
      if_pos (by decide : ("comments.zip" ∈ (["comments.zip"] : List String)))]
  rw [heq]
  refine ⟨rfl, rfl, ?_, ?_⟩
  · exact storeLookup_storeRemove_self w.store _ hnodup
  · rw [h1]
    simp

/-- C10 witness: both archives old, removal of comments.zip fails; the
call reports 0 deletions with an error message although contents.zip was
in fact removed. -/
theorem c10_witness :
    (cleanup_old_files_run ["comments.zip"] ⟨[], [⟨"contents.zip", FileContent.raw [1], 0⟩,
        ⟨"comments.zip", FileContent.raw [2], 1⟩], 1000000⟩ 7).2.1 = 0 ∧
    (cleanup_old_files_run ["comments.zip"] ⟨[], [⟨"contents.zip", FileContent.raw [1], 0⟩,
        ⟨"comments.zip", FileContent.raw [2], 1⟩], 1000000⟩ 7).2.2 =
      "清理文件时出错: " ++ ("无法删除: " ++ "comments.zip") ∧
    storeLookup (cleanup_old_files_run ["comments.zip"]
        ⟨[], [⟨"contents.zip", FileContent.raw [1], 0⟩,
          ⟨"comments.zip", FileContent.raw [2], 1⟩], 1000000⟩ 7).1.store
      "contents.zip" = none ∧
    storeLookup (⟨[], [⟨"contents.zip", FileContent.raw [1], 0⟩,
        ⟨"comments.zip", FileContent.raw [2], 1⟩], 1000000⟩ : World).store
      "contents.zip" ≠ none :=
  c10_cleanup_error_count ⟨[], [⟨"contents.zip", FileContent.raw [1], 0⟩,
      ⟨"comments.zip", FileContent.raw [2], 1⟩], 1000000⟩ 7
    ⟨"contents.zip", FileContent.raw [1], 0⟩ ⟨"comments.zip", FileContent.raw [2], 1⟩
    (by decide) rfl rfl (by decide) (by decide)

/-- C2 counterexample: a file named extra.zip sits in the Archive Store
directory, yet the /status response lists no files at all -- the files
list does not match the directory's contents, because the listing only
probes the two fixed archive names. -/
theorem c2_counterexample :
    "extra.zip" ∈ storeNames
      (⟨[], [⟨"extra.zip", FileContent.raw [0], 0⟩], 0⟩ : World).store ∧
    (do_GET ⟨[], [⟨"extra.zip", FileContent.raw [0], 0⟩], 0⟩
        ⟨2025, 1, 1, 0, 0, 0, 0⟩ "/status").response =
      ⟨200, [("Content-type", "application/json")],
       HttpBody.json (Json.obj
         [("status", Json.str "running"),
          ("timestamp", Json.str (isoformat ⟨2025, 1, 1, 0, 0, 0, 0⟩)),
          ("files", Json.arr [])])⟩ := by
  exact ⟨by decide, rfl⟩

/-- C2 (amended): every GET /status request is answered 200 JSON whose
files list holds exactly those of the two fixed archive names
(contents.zip, comments.zip) that currently exist in the Archive Store
-- any other file in the directory is not listed -- and whose timestamp
(datetime.isoformat of the current time) parses as ISO8601. -/
theorem c2_status_lists_known_archives (w : World) (dt : PyDateTime) (hdt : dt.Valid) :
    (do_GET w dt "/status").response =
      ⟨200, [("Content-type", "application/json")],
       HttpBody.json (Json.obj
         [("status", Json.str "running"),
          ("timestamp", Json.str (isoformat dt)),
          ("files", Json.arr ((get_available_files w.store).map entryJson))])⟩ ∧
    (get_available_files w.store).map (fun e => e.name) =
      zip_files.filter (fun n => (storeLookup w.store n).isSome) ∧
    (parseISO8601 (isoformat dt)).isSome = true := by
  refine ⟨rfl, ?_, by rw [parseISO8601_isoformat dt hdt]; rfl⟩
  rcases h1 : storeLookup w.store "contents.zip" with _ | f1 <;>
    rcases h2 : storeLookup w.store "comments.zip" with _ | f2 <;>
      simp [get_available_files, zip_files, h1, h2]

/-- C2 witness: one existing contents archive is listed with its name,
and the concrete timestamp 2025-06-15T12:30:45.000123 parses. -/
theorem c2_witness :
    (get_available_files (⟨[], [⟨"contents.zip", FileContent.raw [7], 42⟩], 0⟩ : World).store).map
        (fun e => e.name) =
      zip_files.filter (fun n =>
        (storeLookup (⟨[], [⟨"contents.zip", FileContent.raw [7], 42⟩], 0⟩ : World).store
          n).isSome) ∧
    (parseISO8601 (isoformat ⟨2025, 6, 15, 12, 30, 45, 123⟩)).isSome = true :=
  let h := c2_status_lists_known_archives ⟨[], [⟨"contents.zip", FileContent.raw [7], 42⟩], 0⟩
    ⟨2025, 6, 15, 12, 30, 45, 123⟩ (by decide)
  ⟨h.2.1, h.2.2⟩
